import Mathlib

/-!
Shallow embedding of the job-tracker application (`app.py`): the relevance
filter `is_tech_job`, the two source adapters `scrape_indeed` and
`scrape_weworkremotely`, the placeholder data `load_test_data`, the store
operations `save_jobs`, `get_jobs`, `save_job_bookmark`,
`remove_job_bookmark`, and the pipeline `scrape_all_jobs`.

External effects are passed explicitly: the outcome of a page fetch is an
`Option (List RawCard)` argument (`none` models a network/timeout/HTTP
error raised by `requests.get` / `raise_for_status`), per-row storage
failures are a `fails` predicate argument, the wall clock is a `now`
argument, and CPython's per-process string-hash salt is a `seed` argument.
The SQLite tables are lists of rows; `INSERT OR REPLACE` deletes the
conflicting row and appends the new one, which is the semantics modelled
by `upsertRow`.
-/

namespace JobTracker

/-- Model of Python `str.lower` on one ASCII character. -/
def lowerChar (c : Char) : Char :=
  if 'A' ≤ c ∧ c ≤ 'Z' then Char.ofNat (c.toNat + 32) else c

/-- Model of Python `str.lower` (ASCII range, which covers all titles and
keywords appearing in the program). -/
def py_lower (s : String) : String :=
  ⟨s.data.map lowerChar⟩

/-- Model of Python `str.strip`: drop whitespace from both ends. -/
def py_strip (s : String) : String :=
  ⟨((s.data.dropWhile Char.isWhitespace).reverse.dropWhile Char.isWhitespace).reverse⟩

/-- Does the second list start with the first one? -/
def starts_with : List Char → List Char → Bool
  | [], _ => true
  | _ :: _, [] => false
  | n :: ns, h :: hs => n == h && starts_with ns hs

/-- Model of Python `needle in haystack` on strings: substring containment. -/
def contains_sub : List Char → List Char → Bool
  | ns, [] => starts_with ns []
  | ns, h :: t => starts_with ns (h :: t) || contains_sub ns t

/-- The fixed keyword list of `JobScraper.is_tech_job`. -/
def tech_keywords : List String :=
  ["software", "developer", "engineer", "it ", "cyber", "data",
   "web", "python", "java", "javascript", "analyst", "devops",
   "cloud", "security", "frontend", "backend", "full stack"]

/-- `JobScraper.is_tech_job`: `any(keyword in title.lower() for keyword in tech_keywords)`. -/
def is_tech_job (title : String) : Bool :=
  tech_keywords.any (fun k => contains_sub k.data (py_lower title).data)

/-- A job record as built by the adapters (the dict pushed onto `jobs`). -/
structure Job where
  id : String
  title : String
  company : String
  location : String
  posted_date : String
  url : String
  source : String
deriving DecidableEq

/-- Model of CPython's salted string hash `hash(s)`. CPython hashes str
with siphash keyed by a per-process random salt (`PYTHONHASHSEED`); the
property that matters here is that the value is a function of the process
salt as well as of the string, so we model it as a seed-dependent
polynomial hash of the code points reduced mod 2^64. -/
def pyHash (seed : Nat) (s : String) : Nat :=
  s.data.foldl (fun h c => (h * 1000003 + c.toNat) % (2 ^ 64)) (seed % (2 ^ 64))

/-- Model of `urllib.parse.urljoin(base, href)` for the cases the program
exercises: an absolute `href` is returned as is, a root-relative `href` is
appended to the site base (the bases used carry no path). -/
def urljoin (base href : String) : String :=
  if starts_with "http://".data href.data || starts_with "https://".data href.data
  then href else base ++ href

/-- One job card as extracted from the page markup: the text of the title
tag, company tag and date tag when present, and the `href` of the first
anchor when present. `none` models `find` returning `None`. -/
structure RawCard where
  title : Option String
  company : Option String
  date : Option String
  href : Option String
deriving DecidableEq

/-- `tag.text.strip() if tag else 'Unknown'`. -/
def textOrUnknown : Option String → String
  | some s => py_strip s
  | none => "Unknown"

/-- The dict appended for one accepted card. -/
def mkJob (seed : Nat) (base src idp : String) (t h : String) (card : RawCard) : Job :=
  ⟨idp ++ toString (pyHash seed (urljoin base h)), py_strip t,
   textOrUnknown card.company, "Remote", textOrUnknown card.date,
   urljoin base h, src⟩

/-- The adapters' card loop. A card whose title tag is missing or whose
title fails `is_tech_job` is skipped. On an accepted card with no anchor,
`job.find('a')['href']` raises; the exception is caught by the adapter's
`except`, which returns the jobs accumulated so far — modelled by
returning `[]` at that point, so the overall result is the prefix parsed
before the error. -/
def scrapeCards (seed : Nat) (base src idp : String) : List RawCard → List Job
  | [] => []
  | card :: rest =>
    match card.title with
    | none => scrapeCards seed base src idp rest
    | some t =>
      if is_tech_job t then
        match card.href with
        | none => []
        | some h => mkJob seed base src idp t h card :: scrapeCards seed base src idp rest
      else scrapeCards seed base src idp rest

/-- `JobScraper.scrape_indeed`; `fetched = none` models a network, timeout
or HTTP error raised by the fetch, caught by the adapter's `except`. -/
def scrape_indeed (seed : Nat) (fetched : Option (List RawCard)) : List Job :=
  match fetched with
  | none => []
  | some cards => scrapeCards seed "https://www.indeed.com" "Indeed" "indeed_" cards

/-- `JobScraper.scrape_weworkremotely`; same conventions as `scrape_indeed`. -/
def scrape_weworkremotely (seed : Nat) (fetched : Option (List RawCard)) : List Job :=
  match fetched with
  | none => []
  | some cards => scrapeCards seed "https://weworkremotely.com" "WeWorkRemotely" "wwr_" cards

/-- `JobScraper.load_test_data`: the fixed placeholder listings. -/
def load_test_data : List Job :=
  [⟨"test_1", "Part-time Python Developer", "TechCorp", "Remote",
    "1 day ago", "https://example.com/job1", "Test Data"⟩,
   ⟨"test_2", "Remote Frontend Engineer (Part-time)", "WebStack Inc", "Remote",
    "2 days ago", "https://example.com/job2", "Test Data"⟩,
   ⟨"test_3", "Part-time Data Analyst", "DataCo", "Remote",
    "3 days ago", "https://example.com/job3", "Test Data"⟩]

/-- One row of the SQLite `jobs` table. -/
structure JobRow where
  id : String
  title : String
  company : String
  location : String
  posted_date : String
  url : String
  source : String
  timestamp : String
deriving DecidableEq

/-- The row written for a job: all its fields plus `datetime.now().isoformat()`. -/
def toRow (now : String) (j : Job) : JobRow :=
  ⟨j.id, j.title, j.company, j.location, j.posted_date, j.url, j.source, now⟩

/-- `INSERT OR REPLACE` on the primary key `id`: the conflicting row is
deleted and the new row inserted (at the end, in fresh-rowid position). -/
def upsertRow (r : JobRow) (rows : List JobRow) : List JobRow :=
  rows.filter (fun x => x.id != r.id) ++ [r]

/-- `JobDatabase.save_jobs`: each row independently upserted; `fails j`
models a `sqlite3.Error` raised by that row's `execute`, which the
per-row `except` catches and logs, leaving the table unchanged for that
row and continuing with the rest of the batch. -/
def save_jobs (fails : Job → Bool) (now : String) (jobs : List Job) (rows : List JobRow) : List JobRow :=
  jobs.foldl (fun rs j => if fails j then rs else upsertRow (toRow now j) rs) rows

/-- The run with no storage-layer failures. -/
def noFail : Job → Bool := fun _ => false

/-- Byte-order comparison of two strings as lists of characters, the
BINARY collation SQLite applies to the TEXT column `timestamp` in
`ORDER BY timestamp DESC` (code-point order coincides with UTF-8 byte
order). -/
def chars_le : List Char → List Char → Bool
  | [], _ => true
  | _ :: _, [] => false
  | a :: as, b :: bs => if a = b then chars_le as bs else decide (a < b)

/-- The `ORDER BY timestamp DESC` relation on rows. -/
def tsDesc (a b : JobRow) : Prop :=
  chars_le b.timestamp.data a.timestamp.data = true

instance : DecidableRel tsDesc :=
  fun a b => instDecidableEqBool (chars_le b.timestamp.data a.timestamp.data) true

/-- `JobDatabase.get_jobs`: the rows sorted by `timestamp DESC`, the first
`limit` of them, each annotated by the LEFT JOIN against `saved_jobs`
(`saved` is the bookmark table, a list of ids). -/
def get_jobs (limit : Nat) (rows : List JobRow) (saved : List String) : List (JobRow × Bool) :=
  ((List.insertionSort tsDesc rows).take limit).map (fun r => (r, saved.contains r.id))

/-- `JobDatabase.save_job_bookmark`: a plain `INSERT` into a one-column
primary-key table. A duplicate id raises `sqlite3.IntegrityError`, caught
and logged, leaving the table unchanged; foreign keys are not enabled in
this database, so an id absent from `jobs` inserts fine. -/
def save_job_bookmark (bm : List String) (i : String) : List String :=
  if bm.contains i then bm else bm ++ [i]

/-- `JobDatabase.remove_job_bookmark`: `DELETE FROM saved_jobs WHERE job_id = ?`. -/
def remove_job_bookmark (bm : List String) (i : String) : List String :=
  bm.filter (fun x => x != i)

/-- `scrape_all_jobs`: both adapters, the empty-result fallback to
`load_test_data`, then `save_jobs`. -/
def scrape_all_jobs (seed : Nat) (indeed wwr : Option (List RawCard))
    (fails : Job → Bool) (now : String) (rows : List JobRow) : List JobRow :=
  save_jobs fails now
    (if (scrape_indeed seed indeed ++ scrape_weworkremotely seed wwr).isEmpty
     then load_test_data
     else scrape_indeed seed indeed ++ scrape_weworkremotely seed wwr) rows

/-! Helper lemmas. -/

theorem chars_le_total : ∀ as bs : List Char, chars_le as bs = true ∨ chars_le bs as = true
  | [], [] => Or.inl rfl
  | [], _ :: _ => Or.inl rfl
  | _ :: _, [] => Or.inr rfl
  | a :: as, b :: bs => by
    by_cases h : a = b
    · subst h
      rcases chars_le_total as bs with h1 | h1
      · exact Or.inl (by simp [chars_le, h1])
      · exact Or.inr (by simp [chars_le, h1])
    · rcases lt_or_gt_of_ne h with hl | hl
      · exact Or.inl (by simp [chars_le, h, hl])
      · exact Or.inr (by simp [chars_le, Ne.symm h, hl])

theorem chars_le_trans : ∀ as bs cs : List Char,
    chars_le as bs = true → chars_le bs cs = true → chars_le as cs = true
  | [], _, _, _, _ => rfl
  | _ :: _, [], _, h1, _ => by simp [chars_le] at h1
  | _ :: _, _ :: _, [], _, h2 => by simp [chars_le] at h2
  | a :: as, b :: bs, c :: cs, h1, h2 => by
    by_cases hab : a = b <;> by_cases hbc : b = c
    · subst hab; subst hbc
      simp only [chars_le, if_pos rfl] at h1 h2 ⊢
      exact chars_le_trans as bs cs h1 h2
    · subst hab
      simp [chars_le, hbc] at h2 ⊢
      simp [ne_of_lt h2, h2]
    · subst hbc
      simp [chars_le, hab] at h1 ⊢
      simp [hab, h1]
    · simp [chars_le, hab, hbc] at h1 h2
      have hac : a < c := lt_trans h1 h2
      simp [chars_le, ne_of_lt hac, hac]

theorem save_jobs_cons (fails : Job → Bool) (now : String) (j : Job) (js : List Job)
    (rows : List JobRow) :
    save_jobs fails now (j :: js) rows
      = save_jobs fails now js (if fails j then rows else upsertRow (toRow now j) rows) := by
  by_cases h : fails j <;> simp [save_jobs, h]

theorem mem_filter_id_ne (i : String) (rows : List JobRow) :
    (rows.filter (fun x => x.id != i)).filter (fun r => r.id == i) = [] := by
  rw [List.filter_eq_nil_iff]
  intro a ha
  have h := List.of_mem_filter ha
  simp at h ⊢
  exact h

/-! Claim theorems. -/

/-- C8: the relevance filter `is_tech_job` is a total function doing
case-insensitive substring match against the fixed keyword list: its
result is unchanged by changing the case of the title, it accepts
"Part-time Python Developer" and rejects "Warehouse Associate". -/
theorem C8_relevance_filter :
    (∀ t u : String, py_lower t = py_lower u → is_tech_job t = is_tech_job u)
    ∧ is_tech_job "Part-time Python Developer" = true
    ∧ is_tech_job "Warehouse Associate" = false := by
  refine ⟨fun t u h => ?_, by decide, by decide⟩
  simp only [is_tech_job, h]

/-- Witness for C8: the case-insensitivity conjunct at a concrete pair. -/
theorem C8_witness :
    py_lower "PYTHON Dev" = py_lower "python dev"
    ∧ is_tech_job "PYTHON Dev" = is_tech_job "python dev" :=
  ⟨by decide, C8_relevance_filter.1 "PYTHON Dev" "python dev" (by decide)⟩

/-- C1: the id minted for a candidate is NOT a deterministic function of
(source, canonical URL) across process runs: it is built from CPython's
per-process salted `hash`, so the same card scraped under two different
process hash seeds yields two different id strings. The claim states the
spec's intent (spec section 9 itself records the code's hash as the bug). -/
theorem C1_id_unstable_across_runs :
    (scrape_indeed 0 (some [⟨some "python developer", some "TechCorp", some "1 day ago",
        some "https://example.com/job1"⟩])).map Job.id
    ≠ (scrape_indeed 1 (some [⟨some "python developer", some "TechCorp", some "1 day ago",
        some "https://example.com/job1"⟩])).map Job.id := by
  decide

/-- C2: upsert idempotence. Upserting the same listing twice in
succession leaves the table in the same state as upserting it once at the
later write: the double upsert equals the single upsert, and exactly one
row carries that id, all of whose fields come from the latest write. -/
theorem C2_upsert_idempotent (now1 now2 : String) (j : Job) (rows : List JobRow) :
    save_jobs noFail now2 [j] (save_jobs noFail now1 [j] rows) = save_jobs noFail now2 [j] rows
    ∧ (save_jobs noFail now2 [j] (save_jobs noFail now1 [j] rows)).filter
        (fun r => r.id == j.id) = [toRow now2 j] := by
  have h1 : ∀ now rs, save_jobs noFail now [j] rs = upsertRow (toRow now j) rs :=
    fun _ _ => rfl
  constructor
  · rw [h1, h1, h1]
    simp [upsertRow, toRow, List.filter_append, List.filter_filter]
  · rw [h1, h1]
    simp only [upsertRow, toRow, List.filter_append]
    simp [mem_filter_id_ne j.id rows]

/-- C7: batch resilience of upsert. A run of `save_jobs` in which some
rows hit a storage-layer error (modelled by `fails`) behaves exactly as a
failure-free run over the non-failing rows: the error is absorbed inside
the loop and the remaining rows of the batch are still upserted. -/
theorem C7_batch_resilience (fails : Job → Bool) (now : String) (jobs : List Job)
    (rows : List JobRow) :
    save_jobs fails now jobs rows
      = save_jobs noFail now (jobs.filter (fun j => !(fails j))) rows := by
  induction jobs generalizing rows with
  | nil => rfl
  | cons j js ih =>
    by_cases h : fails j
    · rw [save_jobs_cons, if_pos h]
      simp only [List.filter_cons, h]
      exact ih rows
    · rw [save_jobs_cons, if_neg h]
      have hb : fails j = false := by simpa using h
      rw [show (j :: js).filter (fun k => !(fails k)) = j :: js.filter (fun k => !(fails k))
        by simp [hb]]
      rw [save_jobs_cons noFail now j _ rows, if_neg (by simp [noFail])]
      exact ih _

theorem upsertRow_keeps_id (i : String) (r0 : JobRow) (rows : List JobRow)
    (h : ∃ r ∈ rows, r.id = i) : ∃ r ∈ upsertRow r0 rows, r.id = i := by
  obtain ⟨r, hr, hi⟩ := h
  by_cases he : r.id = r0.id
  · exact ⟨r0, List.mem_append_right _ (List.mem_singleton.mpr rfl), he ▸ hi⟩
  · refine ⟨r, List.mem_append_left _ ?_, hi⟩
    exact List.mem_filter.mpr ⟨hr, by simpa using he⟩

theorem save_jobs_keeps_id (fails : Job → Bool) (now : String) (i : String) :
    ∀ (js : List Job) (rows : List JobRow), (∃ r ∈ rows, r.id = i) →
      ∃ r ∈ save_jobs fails now js rows, r.id = i
  | [], _, h => h
  | j :: js, rows, h => by
    rw [save_jobs_cons]
    by_cases hf : fails j
    · rw [if_pos hf]
      exact save_jobs_keeps_id fails now i js rows h
    · rw [if_neg hf]
      exact save_jobs_keeps_id fails now i js _ (upsertRow_keeps_id i _ rows h)

theorem save_jobs_mem_id (now : String) :
    ∀ (js : List Job) (rows : List JobRow) (j : Job), j ∈ js →
      ∃ r ∈ save_jobs noFail now js rows, r.id = j.id
  | [], _, _, h => absurd h (List.not_mem_nil _)
  | k :: js, rows, j, h => by
    rw [save_jobs_cons, if_neg (by simp [noFail])]
    rcases List.mem_cons.mp h with he | hm
    · subst he
      refine save_jobs_keeps_id noFail now j.id js _ ?_
      exact ⟨toRow now j, List.mem_append_right _ (List.mem_singleton.mpr rfl), rfl⟩
    · exact save_jobs_mem_id now js _ j hm

theorem scrapeCards_stops_at_bad_card (seed : Nat) (base src idp : String)
    (t : String) (co dt : Option String) (ht : is_tech_job t = true) :
    ∀ (before rest : List RawCard),
      scrapeCards seed base src idp (before ++ (⟨some t, co, dt, none⟩ : RawCard) :: rest)
        = scrapeCards seed base src idp (before ++ [⟨some t, co, dt, none⟩])
  | [], _ => by simp [scrapeCards, ht]
  | card :: before, rest => by
    simp only [List.cons_append, scrapeCards]
    cases card.title with
    | none => exact scrapeCards_stops_at_bad_card seed base src idp t co dt ht before rest
    | some u =>
      dsimp only
      by_cases hu : is_tech_job u
      · rw [if_pos hu, if_pos hu]
        cases card.href with
        | none => rfl
        | some h =>
          exact congrArg (mkJob seed base src idp u h card :: ·)
            (scrapeCards_stops_at_bad_card seed base src idp t co dt ht before rest)
      · rw [if_neg hu, if_neg hu]
        exact scrapeCards_stops_at_bad_card seed base src idp t co dt ht before rest

/-- C3 counterexample: the claim says a missing-markup error inside an
adapter is reported as a soft failure with an EMPTY result. Here the
second Indeed card passes the filter but has no anchor, so
`job.find('a')['href']` raises mid-loop; the exception is caught, yet the
adapter returns the job parsed before the error — a non-empty result. -/
theorem C3_counterexample :
    is_tech_job "python dev 2" = true
    ∧ (⟨some "python dev 2", none, none, none⟩ : RawCard).href = none
    ∧ scrape_indeed 0 (some [⟨some "python dev", none, none, some "/a"⟩,
        ⟨some "python dev 2", none, none, none⟩]) ≠ [] := by
  decide

/-- C3 (amended): errors inside one adapter never escape it and never
affect the sibling adapter. A fetch error (network/timeout/HTTP) yields an
empty result for that adapter; a missing-anchor markup error mid-parse
truncates that adapter's result to the jobs parsed before the bad card
(not necessarily empty); and in the same run every job produced by one
adapter still has a row with its id in the store written by
`scrape_all_jobs`, whatever the other adapter's input. -/
theorem C3_isolation (seed : Nat) (indeed wwr : Option (List RawCard))
    (now : String) (rows : List JobRow) :
    scrape_indeed seed none = []
    ∧ scrape_weworkremotely seed none = []
    ∧ (∀ (base src idp t : String) (co dt : Option String) (before rest : List RawCard),
        is_tech_job t = true →
        scrapeCards seed base src idp (before ++ (⟨some t, co, dt, none⟩ : RawCard) :: rest)
          = scrapeCards seed base src idp (before ++ [⟨some t, co, dt, none⟩]))
    ∧ (∀ j ∈ scrape_weworkremotely seed wwr,
        ∃ r ∈ scrape_all_jobs seed indeed wwr noFail now rows, r.id = j.id)
    ∧ (∀ j ∈ scrape_indeed seed indeed,
        ∃ r ∈ scrape_all_jobs seed indeed wwr noFail now rows, r.id = j.id) := by
  refine ⟨rfl, rfl,
    fun base src idp t co dt before rest ht =>
      scrapeCards_stops_at_bad_card seed base src idp t co dt ht before rest, ?_, ?_⟩
  · intro j hj
    have hm : j ∈ scrape_indeed seed indeed ++ scrape_weworkremotely seed wwr :=
      List.mem_append_right _ hj
    have hne : ¬ ((scrape_indeed seed indeed ++ scrape_weworkremotely seed wwr).isEmpty = true) := by
      rw [List.isEmpty_iff]
      exact List.ne_nil_of_mem hm
    unfold scrape_all_jobs
    rw [if_neg hne]
    exact save_jobs_mem_id now _ rows j hm
  · intro j hj
    have hm : j ∈ scrape_indeed seed indeed ++ scrape_weworkremotely seed wwr :=
      List.mem_append_left _ hj
    have hne : ¬ ((scrape_indeed seed indeed ++ scrape_weworkremotely seed wwr).isEmpty = true) := by
      rw [List.isEmpty_iff]
      exact List.ne_nil_of_mem hm
    unfold scrape_all_jobs
    rw [if_neg hne]
    exact save_jobs_mem_id now _ rows j hm

/-- Witness for C3: with Indeed failing its fetch and one good
WeWorkRemotely card, the job scraped from WeWorkRemotely is found (by id)
in the store written by the run. -/
theorem C3_witness :
    ∃ r ∈ scrape_all_jobs 0 none (some [⟨some "python dev", none, none, some "/a"⟩])
        noFail "2024-01-01T00:00:00" [],
      r.id = "wwr_" ++ toString (pyHash 0 "https://weworkremotely.com/a") := by
  have h := (C3_isolation 0 none (some [⟨some "python dev", none, none, some "/a"⟩])
    "2024-01-01T00:00:00" []).2.2.2.1
  exact h ⟨"wwr_" ++ toString (pyHash 0 "https://weworkremotely.com/a"), "python dev",
    "Unknown", "Remote", "Unknown", "https://weworkremotely.com/a", "WeWorkRemotely"⟩
    (by decide)

/-- C4: empty-run fallback. When both adapters produce no listings, the
run upserts exactly the fixed placeholder set `load_test_data`, and the
store is non-empty afterwards. -/
theorem C4_empty_run_fallback (seed : Nat) (indeed wwr : Option (List RawCard))
    (now : String) (rows : List JobRow)
    (hi : scrape_indeed seed indeed = []) (hw : scrape_weworkremotely seed wwr = []) :
    scrape_all_jobs seed indeed wwr noFail now rows = save_jobs noFail now load_test_data rows
    ∧ scrape_all_jobs seed indeed wwr noFail now rows ≠ [] := by
  have h1 : scrape_all_jobs seed indeed wwr noFail now rows
      = save_jobs noFail now load_test_data rows := by
    unfold scrape_all_jobs
    rw [hi, hw]
    rfl
  refine ⟨h1, ?_⟩
  rw [h1]
  show save_jobs noFail now load_test_data rows ≠ []
  simp [save_jobs, load_test_data, noFail, upsertRow]

/-- Witness for C4: both adapters fail their fetch; the run still leaves a
non-empty store equal to the placeholder upsert. -/
theorem C4_witness :
    scrape_indeed 0 none = [] ∧ scrape_weworkremotely 0 none = []
    ∧ scrape_all_jobs 0 none none noFail "2024-01-01T00:00:00" []
        = save_jobs noFail "2024-01-01T00:00:00" load_test_data []
    ∧ scrape_all_jobs 0 none none noFail "2024-01-01T00:00:00" [] ≠ [] :=
  ⟨rfl, rfl, (C4_empty_run_fallback 0 none none "2024-01-01T00:00:00" [] rfl rfl).1,
    (C4_empty_run_fallback 0 none none "2024-01-01T00:00:00" [] rfl rfl).2⟩

/-- C5: for every store state and limit, `get_jobs` returns the `limit`
most-recently-fetched rows, newest first, each annotated with its
bookmark membership: the result has length `min limit rows.length`, is
sorted by timestamp descending, draws its rows from the store with the
LEFT-JOIN annotation, and every row left out is no newer than every row
returned. `get_jobs` is a pure function of the table state, so ties are
broken deterministically. In particular, for fetch times T1 < T2 < T3,
`get_jobs 2` returns exactly the T3 and T2 rows in that order. -/
theorem C5_read_ordering (limit : Nat) (rows : List JobRow) (saved : List String) :
    (get_jobs limit rows saved).length = min limit rows.length
    ∧ (get_jobs limit rows saved).Pairwise
        (fun p q => chars_le q.1.timestamp.data p.1.timestamp.data = true)
    ∧ (∀ p ∈ get_jobs limit rows saved, p.1 ∈ rows ∧ p.2 = saved.contains p.1.id)
    ∧ (∀ r ∈ rows, (∀ p ∈ get_jobs limit rows saved, p.1 ≠ r) →
        ∀ p ∈ get_jobs limit rows saved, chars_le r.timestamp.data p.1.timestamp.data = true)
    ∧ get_jobs 2 [⟨"a", "", "", "", "", "", "", "T1"⟩, ⟨"b", "", "", "", "", "", "", "T3"⟩,
        ⟨"c", "", "", "", "", "", "", "T2"⟩] []
      = [(⟨"b", "", "", "", "", "", "", "T3"⟩, false),
         (⟨"c", "", "", "", "", "", "", "T2"⟩, false)] := by
  haveI hTot : IsTotal JobRow tsDesc := ⟨fun a b => chars_le_total _ _⟩
  haveI hTrans : IsTrans JobRow tsDesc := ⟨fun _ _ _ hab hbc => chars_le_trans _ _ _ hbc hab⟩
  have hperm := List.perm_insertionSort tsDesc rows
  have hsort := List.sorted_insertionSort tsDesc rows
  refine ⟨?_, ?_, ?_, ?_, by decide⟩
  · simp [get_jobs, List.length_take, hperm.length_eq]
  · rw [get_jobs, List.pairwise_map]
    exact List.Pairwise.imp (fun h => h)
      (List.Pairwise.sublist (List.take_sublist _ _) hsort)
  · intro p hp
    obtain ⟨x, hx, rfl⟩ := List.mem_map.mp hp
    exact ⟨hperm.subset (List.take_subset _ _ hx), rfl⟩
  · intro r hr hnot p hp
    obtain ⟨x, hx, rfl⟩ := List.mem_map.mp hp
    have hrs : r ∈ List.insertionSort tsDesc rows := hperm.mem_iff.mpr hr
    have hrt : r ∉ (List.insertionSort tsDesc rows).take limit := by
      intro hmem
      exact hnot (r, saved.contains r.id) (List.mem_map.mpr ⟨r, hmem, rfl⟩) rfl
    have hrd : r ∈ (List.insertionSort tsDesc rows).drop limit := by
      rw [← List.take_append_drop limit (List.insertionSort tsDesc rows)] at hrs
      rcases List.mem_append.mp hrs with h | h
      · exact absurd h hrt
      · exact h
    have hps : ((List.insertionSort tsDesc rows).take limit
        ++ (List.insertionSort tsDesc rows).drop limit).Pairwise tsDesc := by
      rw [List.take_append_drop]
      exact hsort
    exact (List.pairwise_append.mp hps).2.2 x hx r hrd

/-- Witness for C5: with rows at times T1 < T2 and limit 1, the row left
out (T1) is no newer than the returned row (T2). -/
theorem C5_witness :
    chars_le ("T1".data) (((⟨"b", "", "", "", "", "", "", "T2"⟩ : JobRow), false).1.timestamp.data)
      = true :=
  (C5_read_ordering 1 [⟨"a", "", "", "", "", "", "", "T1"⟩, ⟨"b", "", "", "", "", "", "", "T2"⟩]
    []).2.2.2.1 ⟨"a", "", "", "", "", "", "", "T1"⟩ (by decide) (by decide)
    ((⟨"b", "", "", "", "", "", "", "T2"⟩ : JobRow), false) (by decide)

/-- C6: `save_job_bookmark` and `remove_job_bookmark` are idempotent set
insert/remove and total for every id: inserting succeeds (the id is
contained afterwards) even for an id absent from the jobs table, a second
insert and a second remove are no-ops, removing a never-bookmarked id
returns the table unchanged, and `get_jobs` is unaffected by a bookmark
orphaned with respect to the rows it joins against (the LEFT JOIN never
fails). -/
theorem C6_bookmark_tolerance :
    (∀ (bm : List String) (i : String),
      save_job_bookmark (save_job_bookmark bm i) i = save_job_bookmark bm i)
    ∧ (∀ (bm : List String) (i : String), (save_job_bookmark bm i).contains i = true)
    ∧ (∀ (bm : List String) (i : String),
      remove_job_bookmark (remove_job_bookmark bm i) i = remove_job_bookmark bm i)
    ∧ (∀ (bm : List String) (i : String),
      bm.contains i = false → remove_job_bookmark bm i = bm)
    ∧ (∀ (limit : Nat) (rows : List JobRow) (bm : List String) (i : String),
      (rows.map JobRow.id).contains i = false →
        get_jobs limit rows (save_job_bookmark bm i) = get_jobs limit rows bm) := by
  refine ⟨?_, ?_, ?_, ?_, ?_⟩
  · intro bm i
    by_cases h : i ∈ bm
    · simp [save_job_bookmark, h]
    · simp [save_job_bookmark, h]
  · intro bm i
    by_cases h : i ∈ bm
    · simp [save_job_bookmark, h]
    · simp [save_job_bookmark, h]
  · intro bm i
    simp [remove_job_bookmark, List.filter_filter]
  · intro bm i h
    have hni : i ∉ bm := by simpa [List.contains, List.elem_eq_mem] using h
    refine List.filter_eq_self.mpr (fun a ha => ?_)
    have hne : a ≠ i := fun he => hni (he ▸ ha)
    simpa using hne
  · intro limit rows bm i h
    have hni : i ∉ rows.map JobRow.id := by
      simpa [List.contains, List.elem_eq_mem] using h
    unfold get_jobs
    refine List.map_congr_left (fun r hr => ?_)
    have hrrows : r ∈ rows :=
      (List.perm_insertionSort tsDesc rows).subset (List.take_subset _ _ hr)
    have hrid : r.id ≠ i := fun he => hni (he ▸ List.mem_map_of_mem JobRow.id hrrows)
    by_cases hc : i ∈ bm
    · simp [save_job_bookmark, hc]
    · simp [save_job_bookmark, hc, hrid]

/-- Witness for C6: removing a never-present bookmark id leaves the
bookmark table unchanged. -/
theorem C6_witness :
    (["a"] : List String).contains "b" = false
    ∧ remove_job_bookmark ["a"] "b" = ["a"] :=
  ⟨by decide, C6_bookmark_tolerance.2.2.2.1 ["a"] "b" (by decide)⟩

theorem scrapeCards_mem (seed : Nat) (base src idp : String) :
    ∀ (cards : List RawCard) (j : Job), j ∈ scrapeCards seed base src idp cards →
      ∃ card ∈ cards, ∃ t h, card.title = some t ∧ is_tech_job t = true
        ∧ card.href = some h ∧ j = mkJob seed base src idp t h card
  | [], j, hj => absurd hj (List.not_mem_nil _)
  | card :: rest, j, hj => by
    revert hj
    simp only [scrapeCards]
    cases hcT : card.title with
    | none =>
      intro hj
      obtain ⟨c, hc, hrest⟩ := scrapeCards_mem seed base src idp rest j hj
      exact ⟨c, List.mem_cons_of_mem _ hc, hrest⟩
    | some t =>
      dsimp only
      by_cases ht : is_tech_job t
      · rw [if_pos ht]
        cases hcH : card.href with
        | none => intro hj; exact absurd hj (List.not_mem_nil _)
        | some h =>
          dsimp only
          intro hj
          rcases List.mem_cons.mp hj with he | hm
          · exact ⟨card, List.mem_cons_self _ _, t, h, hcT, ht, hcH, he⟩
          · obtain ⟨c, hc, hrest⟩ := scrapeCards_mem seed base src idp rest j hm
            exact ⟨c, List.mem_cons_of_mem _ hc, hrest⟩
      · rw [if_neg ht]
        intro hj
        obtain ⟨c, hc, hrest⟩ := scrapeCards_mem seed base src idp rest j hj
        exact ⟨c, List.mem_cons_of_mem _ hc, hrest⟩

/-- C10 counterexample: the claim says every emitted record has a title
accepted by the filter and company and posted_date never empty. A card
whose raw title " work in it " matches only the keyword "it " through its
trailing space, and whose company tag is present with blank text, yields
a record whose emitted (stripped) title the filter rejects and whose
company is the empty string. -/
theorem C10_counterexample :
    (scrape_indeed 0 (some [⟨some "work in it ", some " ", some "today", some "/j1"⟩])).map
      (fun j => (is_tech_job j.title, j.company)) = [(false, "")] := by
  decide

/-- C10 (amended): every record emitted by either adapter has location
literally "Remote", source equal to the adapter's fixed name, and comes
from a card whose raw (unstripped) title the relevance filter accepts;
the emitted title is the stripped raw title, and company and posted_date
are the stripped tag text when the tag is present and the literal
"Unknown" when the tag is missing — so they are non-empty when the tag is
missing but may be empty when the tag is present with blank text. -/
theorem C10_adapter_output (seed : Nat) (cards : List RawCard) :
    (∀ j ∈ scrape_indeed seed (some cards),
      j.location = "Remote" ∧ j.source = "Indeed"
      ∧ ∃ card ∈ cards, ∃ t, card.title = some t ∧ is_tech_job t = true
          ∧ j.title = py_strip t ∧ j.company = textOrUnknown card.company
          ∧ j.posted_date = textOrUnknown card.date)
    ∧ (∀ j ∈ scrape_weworkremotely seed (some cards),
      j.location = "Remote" ∧ j.source = "WeWorkRemotely"
      ∧ ∃ card ∈ cards, ∃ t, card.title = some t ∧ is_tech_job t = true
          ∧ j.title = py_strip t ∧ j.company = textOrUnknown card.company
          ∧ j.posted_date = textOrUnknown card.date) := by
  constructor
  · intro j hj
    obtain ⟨card, hc, t, h, hcT, ht, hcH, rfl⟩ :=
      scrapeCards_mem seed "https://www.indeed.com" "Indeed" "indeed_" cards j hj
    exact ⟨rfl, rfl, card, hc, t, hcT, ht, rfl, rfl, rfl⟩
  · intro j hj
    obtain ⟨card, hc, t, h, hcT, ht, hcH, rfl⟩ :=
      scrapeCards_mem seed "https://weworkremotely.com" "WeWorkRemotely" "wwr_" cards j hj
    exact ⟨rfl, rfl, card, hc, t, hcT, ht, rfl, rfl, rfl⟩

/-- Witness for C10: the job scraped from one good Indeed card has
location "Remote" and source "Indeed". -/
theorem C10_witness :
    (mkJob 0 "https://www.indeed.com" "Indeed" "indeed_" "python dev" "/a"
        ⟨some "python dev", none, none, some "/a"⟩)
      ∈ scrape_indeed 0 (some [⟨some "python dev", none, none, some "/a"⟩])
    ∧ (mkJob 0 "https://www.indeed.com" "Indeed" "indeed_" "python dev" "/a"
        ⟨some "python dev", none, none, some "/a"⟩).location = "Remote"
    ∧ (mkJob 0 "https://www.indeed.com" "Indeed" "indeed_" "python dev" "/a"
        ⟨some "python dev", none, none, some "/a"⟩).source = "Indeed" := by
  have h := (C10_adapter_output 0 [⟨some "python dev", none, none, some "/a"⟩]).1
    (mkJob 0 "https://www.indeed.com" "Indeed" "indeed_" "python dev" "/a"
      ⟨some "python dev", none, none, some "/a"⟩) (by decide)
  exact ⟨by decide, h.1, h.2.1⟩

end JobTracker
